import Mathlib

/-!
Verification of the activity-aggregation and gap-inference engine of the
sleep tracker (src/scripts/sleep_tracker.py).

Timestamps are modelled as integers counting seconds from a local-midnight
epoch, so that the Python datetime hour attribute becomes arithmetic on the
value.  Gap lengths in hours are exact rationals, mirroring the comparison
`gap.total_seconds() / 3600 >= min_gap_hours` without floating-point noise.
-/

/-- Hour-of-day of a timestamp measured in seconds since a local-midnight
epoch; this is the Python `datetime.hour` attribute for such a timestamp. -/
def hourOf (t : ℤ) : ℕ := (t % 86400).toNat / 3600

/-- A detected inactivity period, the dictionary appended by
`find_sleep_periods`: last activity before the gap, first activity after it,
the gap length in hours and the nighttime classification. -/
structure Period where
  sleep_at : ℤ
  wake_at : ℤ
  duration_hours : ℚ
  is_likely_sleep : Bool
deriving DecidableEq

/-- The period record built for a qualifying consecutive pair in the loop body
of `find_sleep_periods` (sleep_tracker.py lines 221-233), including the
nighttime rule `start_hour >= 20 or start_hour < 4`. -/
def mkPeriod (a b : ℤ) : Period :=
  { sleep_at := a
    wake_at := b
    duration_hours := ((b - a : ℤ) : ℚ) / 3600
    is_likely_sleep := decide (20 ≤ hourOf a) || decide (hourOf a < 4) }

/-- The forward scan over consecutive pairs in `find_sleep_periods`
(sleep_tracker.py lines 216-233): emit a period whenever the gap in hours is
at least the threshold. -/
def gapScan (g : ℚ) : List ℤ → List Period
  | a :: b :: rest =>
      (if g ≤ ((b - a : ℤ) : ℚ) / 3600 then [mkPeriod a b] else []) ++
        gapScan g (b :: rest)
  | _ => []

/-- `find_sleep_periods` from sleep_tracker.py: return no periods for fewer
than two timestamps, otherwise scan consecutive pairs. -/
def find_sleep_periods (all_timestamps : List ℤ) (min_gap_hours : ℚ) :
    List Period :=
  if all_timestamps.length < 2 then [] else gapScan min_gap_hours all_timestamps

/-- The inner walk of the de-duplication loop in `main` (sleep_tracker.py
lines 337-339): keep a timestamp only when it lies more than 60 seconds after
the last kept one, which then becomes the new reference point. -/
def dedupAux (last : ℤ) : List ℤ → List ℤ
  | [] => []
  | t :: rest => if 60 < t - last then t :: dedupAux t rest else dedupAux last rest

/-- The de-duplication pass of `main` (sleep_tracker.py lines 336-340): keep
the first timestamp of the sorted list, then walk the remainder. -/
def dedup : List ℤ → List ℤ
  | [] => []
  | t :: rest => t :: dedupAux t rest

/-- Timeline aggregation in `main` (sleep_tracker.py lines 333-340): sort all
gathered timestamps ascending, then de-duplicate. -/
def aggregate (l : List ℤ) : List ℤ := dedup (l.insertionSort (· ≤ ·))

/-- The full core pipeline of `main`: aggregate the raw timestamps, then
detect gap periods with the configured threshold. -/
def runCore (l : List ℤ) (g : ℚ) : List Period :=
  find_sleep_periods (aggregate l) g

/-- The three possible last-night summaries printed by `main`. -/
inductive Summary where
  | sleep : Period → Summary
  | away : Period → Summary
  | undetermined : Summary
deriving DecidableEq

/-- Last-night summary selection in `main` (sleep_tracker.py lines 374-396):
the last nighttime period when one exists, otherwise the last period overall,
otherwise the pattern is undetermined. -/
def selectSummary (periods : List Period) : Summary :=
  match (periods.filter (fun p => p.is_likely_sleep)).getLast? with
  | some p => Summary.sleep p
  | none =>
    match periods.getLast? with
    | some p => Summary.away p
    | none => Summary.undetermined

/-- The consecutive timeline pairs whose separation in hours is at least the
threshold: the reformulation target for the gap-completeness claim. -/
def gapPairs (g : ℚ) (tl : List ℤ) : List (ℤ × ℤ) :=
  (tl.zip tl.tail).filter (fun p => decide (g ≤ ((p.2 - p.1 : ℤ) : ℚ) / 3600))

/-- Away period of the fallback-ladder scenario: starts at 08:00. -/
def exP1 : Period := mkPeriod 28800 82800

/-- First sleep period of the fallback-ladder scenario: starts at 23:00. -/
def exP2 : Period := mkPeriod 82800 108000

/-- Second sleep period of the fallback-ladder scenario: starts at 23:30 the
next day. -/
def exP3 : Period := mkPeriod 171000 196200

/-- The guard for fewer than two timestamps is redundant with the scan, which
already returns no periods there. -/
theorem find_sleep_periods_eq_gapScan (tl : List ℤ) (g : ℚ) :
    find_sleep_periods tl g = gapScan g tl := by
  by_cases h : tl.length < 2
  · rw [find_sleep_periods, if_pos h]
    match tl, h with
    | [], _ => rfl
    | [_], _ => rfl
    | _ :: _ :: t, h => exact absurd h (by simp only [List.length_cons]; omega)
  · rw [find_sleep_periods, if_neg h]

/-- The scan emits exactly one period per qualifying consecutive pair, in
timeline order. -/
theorem gapScan_eq_map_gapPairs (g : ℚ) :
    ∀ tl : List ℤ, gapScan g tl = (gapPairs g tl).map (fun p => mkPeriod p.1 p.2)
  | [] => rfl
  | [a] => rfl
  | a :: b :: rest => by
    have ih := gapScan_eq_map_gapPairs g (b :: rest)
    by_cases h : g ≤ ((b : ℚ) - (a : ℚ)) / 3600 <;>
      simp [gapScan, gapPairs, h, List.filter_cons, ih]

/-- The walk keeps only timestamps that extend a chain of gaps above 60
seconds rooted at the reference point. -/
theorem dedupAux_chain (last : ℤ) (l : List ℤ) :
    List.Chain (fun a b => 60 < b - a) last (dedupAux last l) := by
  induction l generalizing last with
  | nil => exact List.Chain.nil
  | cons t rest ih =>
    rw [dedupAux]
    by_cases h : 60 < t - last
    · rw [if_pos h]
      exact List.Chain.cons h (ih t)
    · rw [if_neg h]
      exact ih last

/-- The walk only drops elements, never inserts or reorders. -/
theorem dedupAux_sublist (last : ℤ) (l : List ℤ) : (dedupAux last l).Sublist l := by
  induction l generalizing last with
  | nil => simp [dedupAux]
  | cons t rest ih =>
    rw [dedupAux]
    by_cases h : 60 < t - last
    · rw [if_pos h]
      exact (ih t).cons₂ t
    · rw [if_neg h]
      exact (ih last).cons t

/-- Consecutive kept timestamps are more than 60 seconds apart. -/
theorem dedup_chain (l : List ℤ) :
    (dedup l).Chain' (fun a b => 60 < b - a) := by
  match l with
  | [] => exact List.chain'_nil
  | t :: rest =>
    rw [dedup]
    exact dedupAux_chain t rest

/-- The de-duplicated list is a sublist of the input. -/
theorem dedup_sublist (l : List ℤ) : (dedup l).Sublist l := by
  match l with
  | [] => exact List.Sublist.refl []
  | t :: rest =>
    rw [dedup]
    exact (dedupAux_sublist t rest).cons₂ t

/-- The first timestamp is always kept. -/
theorem dedup_head (l : List ℤ) : (dedup l).head? = l.head? := by
  cases l <;> rfl

/-- On a sorted list, every input timestamp lies at most 60 seconds after
some kept timestamp, so only near-duplicates are dropped. -/
theorem dedupAux_cover (last : ℤ) (l : List ℤ) (hs : l.Sorted (· ≤ ·))
    (hlast : ∀ x ∈ l, last ≤ x) :
    ∀ x ∈ l, ∃ y, (y = last ∨ y ∈ dedupAux last l) ∧ y ≤ x ∧ x - y ≤ 60 := by
  induction l generalizing last with
  | nil => intro x hx; cases hx
  | cons t rest ih =>
    intro x hx
    rw [dedupAux]
    by_cases h : 60 < t - last
    · rw [if_pos h]
      rcases List.mem_cons.mp hx with rfl | hx
      · exact ⟨x, Or.inr (List.mem_cons_self _ _), le_refl x, by omega⟩
      · obtain ⟨y, hy, hyx, hxy⟩ :=
          ih t hs.of_cons (fun z hz => List.rel_of_sorted_cons hs z hz) x hx
        rcases hy with rfl | hy
        · exact ⟨y, Or.inr (List.mem_cons_self _ _), hyx, hxy⟩
        · exact ⟨y, Or.inr (List.mem_cons_of_mem _ hy), hyx, hxy⟩
    · rw [if_neg h]
      rcases List.mem_cons.mp hx with rfl | hx
      · exact ⟨last, Or.inl rfl, hlast x (List.mem_cons_self _ _), by omega⟩
      · exact ih last hs.of_cons (fun z hz => hlast z (List.mem_cons_of_mem _ hz)) x hx

/-- Coverage for the full de-duplication pass on a sorted list. -/
theorem dedup_cover (l : List ℤ) (hs : l.Sorted (· ≤ ·)) :
    ∀ x ∈ l, ∃ y ∈ dedup l, y ≤ x ∧ x - y ≤ 60 := by
  match l with
  | [] => intro x hx; cases hx
  | t :: rest =>
    intro x hx
    rw [dedup]
    rcases List.mem_cons.mp hx with rfl | hx
    · exact ⟨x, List.mem_cons_self _ _, le_refl x, by omega⟩
    · obtain ⟨y, hy, h1, h2⟩ :=
        dedupAux_cover t rest hs.of_cons (fun z hz => List.rel_of_sorted_cons hs z hz) x hx
      rcases hy with rfl | hy
      · exact ⟨y, List.mem_cons_self _ _, h1, h2⟩
      · exact ⟨y, List.mem_cons_of_mem _ hy, h1, h2⟩

/-- The starts of the emitted periods form a sublist of the timeline. -/
theorem gapScan_starts_sublist (g : ℚ) :
    ∀ l : List ℤ, ((gapScan g l).map (fun p => p.sleep_at)).Sublist l
  | [] => by simp [gapScan]
  | [a] => by simp [gapScan]
  | a :: b :: rest => by
    have ih := gapScan_starts_sublist g (b :: rest)
    by_cases h : g ≤ ((b : ℚ) - (a : ℚ)) / 3600
    · simp only [gapScan, Int.cast_sub, if_pos h, List.singleton_append,
        List.map_cons, mkPeriod]
      exact ih.cons₂ a
    · simp only [gapScan, Int.cast_sub, if_neg h, List.nil_append]
      exact ih.cons a

/-- In a sorted list, each consecutive pair is ordered. -/
theorem sorted_zip_tail :
    ∀ {l : List ℤ}, l.Sorted (· ≤ ·) → ∀ p ∈ l.zip l.tail, p.1 ≤ p.2 := by
  intro l
  match l with
  | [] => intro _ p hp; cases hp
  | [a] => intro _ p hp; cases hp
  | a :: b :: rest =>
    intro hs p hp
    rcases List.mem_cons.mp hp with rfl | hp
    · exact List.rel_of_sorted_cons hs b (List.mem_cons_self _ _)
    · exact sorted_zip_tail hs.of_cons p hp

/-- Membership characterization for the scan output: every emitted period
comes from a qualifying consecutive pair. -/
theorem mem_gapScan (g : ℚ) (l : List ℤ) (p : Period)
    (hp : p ∈ gapScan g l) :
    ∃ a b, p = mkPeriod a b ∧ g ≤ ((b - a : ℤ) : ℚ) / 3600 ∧
      (a, b) ∈ l.zip l.tail := by
  rw [gapScan_eq_map_gapPairs] at hp
  obtain ⟨⟨a, b⟩, hab, rfl⟩ := List.mem_map.mp hp
  have := List.mem_filter.mp hab
  exact ⟨a, b, rfl, of_decide_eq_true this.2, this.1⟩

/-- The last element of a list pairwise-sorted on starts has the largest
start. -/
theorem pairwise_le_getLast :
    ∀ (l : List Period) (hl : l ≠ [])
      (_ : l.Pairwise (fun p q => p.sleep_at ≤ q.sleep_at)),
      ∀ p ∈ l, p.sleep_at ≤ (l.getLast hl).sleep_at
  | [], hl, _ => absurd rfl hl
  | [x], _, _ => by
    intro p hp
    rcases List.mem_singleton.mp hp with rfl
    simp
  | x :: y :: t, _, hp => by
    intro p hpp
    rw [List.getLast_cons (List.cons_ne_nil y t)]
    rcases List.mem_cons.mp hpp with rfl | hpp
    · exact (List.pairwise_cons.mp hp).1 _ (List.getLast_mem _)
    · exact pairwise_le_getLast (y :: t) (List.cons_ne_nil y t)
        (List.pairwise_cons.mp hp).2 p hpp

/-- C6: when the Timeline is empty, the resulting period sequence is empty
and the reported summary is the undetermined pattern. -/
theorem C6_empty_timeline (g : ℚ) :
    find_sleep_periods [] g = [] ∧
    selectSummary (find_sleep_periods [] g) = Summary.undetermined :=
  ⟨rfl, rfl⟩

/-- C7: for every timeline with fewer than 2 entries, the gap detector
returns an empty period sequence. -/
theorem C7_insufficient_data (tl : List ℤ) (g : ℚ) (h : tl.length < 2) :
    find_sleep_periods tl g = [] := by
  rw [find_sleep_periods, if_pos h]

theorem C7_insufficient_data_witness :
    ([(5 : ℤ)] : List ℤ).length < 2 ∧ find_sleep_periods [(5 : ℤ)] 3 = [] :=
  ⟨by decide, C7_insufficient_data [(5 : ℤ)] 3 (by decide)⟩

/-- C2: the gap detector emits exactly one period per consecutive pair with
separation at least the threshold (a gap of exactly the threshold included,
since the comparison is not strict), with start the earlier and end the later
entry, none for pairs below it, and the emitted periods are in ascending
start order. -/
theorem C2_gap_completeness (tl : List ℤ) (g : ℚ) (hs : tl.Sorted (· ≤ ·)) :
    find_sleep_periods tl g = (gapPairs g tl).map (fun p => mkPeriod p.1 p.2) ∧
    ((find_sleep_periods tl g).map (fun p => p.sleep_at)).Sorted (· ≤ ·) := by
  constructor
  · rw [find_sleep_periods_eq_gapScan]
    exact gapScan_eq_map_gapPairs g tl
  · rw [find_sleep_periods_eq_gapScan]
    exact hs.sublist (gapScan_starts_sublist g tl)

theorem C2_gap_completeness_witness :
    find_sleep_periods [0, 10800, 14400] 3 =
      (gapPairs 3 [0, 10800, 14400]).map (fun p => mkPeriod p.1 p.2) ∧
    ((find_sleep_periods [0, 10800, 14400] 3).map
      (fun p => p.sleep_at)).Sorted (· ≤ ·) :=
  C2_gap_completeness [0, 10800, 14400] 3 (by decide)

/-- C3: on a sorted input, de-duplication keeps the first timestamp, drops
only elements lying within 60 seconds after a kept one, and leaves
consecutive kept entries strictly more than 60 seconds apart. -/
theorem C3_dedup_invariant (l : List ℤ) (hs : l.Sorted (· ≤ ·)) :
    (dedup l).head? = l.head? ∧
    (dedup l).Sublist l ∧
    (dedup l).Chain' (fun a b => 60 < b - a) ∧
    (∀ x ∈ l, ∃ y ∈ dedup l, y ≤ x ∧ x - y ≤ 60) :=
  ⟨dedup_head l, dedup_sublist l, dedup_chain l, dedup_cover l hs⟩

theorem C3_dedup_invariant_witness :
    (dedup [0, 30, 100]).head? = ([0, 30, 100] : List ℤ).head? ∧
    (dedup [0, 30, 100]).Sublist [0, 30, 100] ∧
    (dedup [0, 30, 100]).Chain' (fun a b => 60 < b - a) :=
  ⟨(C3_dedup_invariant [0, 30, 100] (by decide)).1,
   (C3_dedup_invariant [0, 30, 100] (by decide)).2.1,
   (C3_dedup_invariant [0, 30, 100] (by decide)).2.2.1⟩

/-- C4: every emitted period is classified as likely sleep exactly when the
hour of its own start is at least 20 or below 4. -/
theorem C4_classification (tl : List ℤ) (g : ℚ) (p : Period)
    (hp : p ∈ find_sleep_periods tl g) :
    p.is_likely_sleep = true ↔ (20 ≤ hourOf p.sleep_at ∨ hourOf p.sleep_at < 4) := by
  rw [find_sleep_periods_eq_gapScan] at hp
  obtain ⟨a, b, rfl, -, -⟩ := mem_gapScan g tl p hp
  simp [mkPeriod]

theorem C4_classification_witness :
    (mkPeriod 82800 108000).is_likely_sleep = true ↔
      (20 ≤ hourOf (mkPeriod 82800 108000).sleep_at ∨
        hourOf (mkPeriod 82800 108000).sleep_at < 4) :=
  C4_classification [82800, 108000] 3 (mkPeriod 82800 108000) (by
    have h : find_sleep_periods [82800, 108000] 3 = [mkPeriod 82800 108000] := by
      norm_num [find_sleep_periods, gapScan]
    rw [h]
    exact List.mem_cons_self _ _)

/-- C9: with a positive threshold, every emitted period ends strictly after
it starts, stores its duration as the end minus the start in hours, and that
duration is at least the threshold. -/
theorem C9_period_invariants (tl : List ℤ) (g : ℚ) (_hs : tl.Sorted (· ≤ ·))
    (hg : 0 < g) (p : Period) (hp : p ∈ find_sleep_periods tl g) :
    p.sleep_at < p.wake_at ∧
    p.duration_hours = ((p.wake_at - p.sleep_at : ℤ) : ℚ) / 3600 ∧
    g ≤ p.duration_hours := by
  rw [find_sleep_periods_eq_gapScan] at hp
  obtain ⟨a, b, rfl, hq, -⟩ := mem_gapScan g tl p hp
  refine ⟨?_, rfl, hq⟩
  have h1 : (0 : ℚ) < ((b - a : ℤ) : ℚ) / 3600 := lt_of_lt_of_le hg hq
  have h2 : (0 : ℚ) < ((b - a : ℤ) : ℚ) := by linarith
  have h3 : (0 : ℤ) < b - a := by exact_mod_cast h2
  show a < b
  omega

theorem C9_period_invariants_witness :
    (mkPeriod 82800 108000).sleep_at < (mkPeriod 82800 108000).wake_at ∧
    (mkPeriod 82800 108000).duration_hours =
      (((mkPeriod 82800 108000).wake_at - (mkPeriod 82800 108000).sleep_at : ℤ) : ℚ) / 3600 ∧
    (3 : ℚ) ≤ (mkPeriod 82800 108000).duration_hours :=
  C9_period_invariants [82800, 108000] 3 (by decide) (by norm_num)
    (mkPeriod 82800 108000) (by
      have h : find_sleep_periods [82800, 108000] 3 = [mkPeriod 82800 108000] := by
        norm_num [find_sleep_periods, gapScan]
      rw [h]
      exact List.mem_cons_self _ _)

/-- C10: for a sorted timeline with at least two entries and a non-positive
threshold, every consecutive pair qualifies, so exactly one period per pair
is returned. -/
theorem C10_nonpositive_gap (tl : List ℤ) (g : ℚ) (h2 : 2 ≤ tl.length)
    (hg : g ≤ 0) (hs : tl.Sorted (· ≤ ·)) :
    (find_sleep_periods tl g).length = tl.length - 1 := by
  rw [find_sleep_periods_eq_gapScan, gapScan_eq_map_gapPairs, List.length_map,
    gapPairs]
  have hall : ∀ p ∈ tl.zip tl.tail,
      (fun p : ℤ × ℤ => decide (g ≤ ((p.2 - p.1 : ℤ) : ℚ) / 3600)) p = true := by
    intro p hp
    have h1 : p.1 ≤ p.2 := sorted_zip_tail hs p hp
    have hpos : (0 : ℚ) ≤ ((p.2 - p.1 : ℤ) : ℚ) / 3600 := by
      apply div_nonneg _ (by norm_num)
      exact_mod_cast sub_nonneg.mpr h1
    exact decide_eq_true (le_trans hg hpos)
  rw [List.filter_eq_self.mpr hall, List.length_zip, List.length_tail]
  omega

theorem C10_nonpositive_gap_witness :
    (find_sleep_periods [0, 100] 0).length = ([0, 100] : List ℤ).length - 1 :=
  C10_nonpositive_gap [0, 100] 0 (by decide) (le_refl 0) (by decide)

/-- C8: two runs over the same multiset of raw timestamps, however split
among sources and ordered, produce identical aggregated timelines, period
sequences and classifications. -/
theorem C8_determinism (l1 l2 : List ℤ) (g : ℚ) (h : l1.Perm l2) :
    aggregate l1 = aggregate l2 ∧ runCore l1 g = runCore l2 g ∧
    (runCore l1 g).map (fun p => p.is_likely_sleep) =
      (runCore l2 g).map (fun p => p.is_likely_sleep) := by
  have hsorted : l1.insertionSort (· ≤ ·) = l2.insertionSort (· ≤ ·) :=
    List.eq_of_perm_of_sorted
      ((List.perm_insertionSort _ l1).trans (h.trans (List.perm_insertionSort _ l2).symm))
      (List.sorted_insertionSort _ l1) (List.sorted_insertionSort _ l2)
  have ha : aggregate l1 = aggregate l2 := by
    rw [aggregate, aggregate, hsorted]
  exact ⟨ha, by rw [runCore, runCore, ha], by rw [runCore, runCore, ha]⟩

theorem C8_determinism_witness :
    aggregate [100, 0] = aggregate [0, 100] ∧
    runCore [100, 0] 3 = runCore [0, 100] 3 ∧
    (runCore [100, 0] 3).map (fun p => p.is_likely_sleep) =
      (runCore [0, 100] 3).map (fun p => p.is_likely_sleep) :=
  C8_determinism [100, 0] [0, 100] 3 (List.Perm.swap 0 100 [])

/-- C5: the summary selection is a three-tier fallback: the last nighttime
period (the one with the highest start, under a start-sorted period list)
when one exists, else the last period overall when any exists; and on the
concrete ladder of one away and two sleep periods the most recent sleep
period is selected. -/
theorem C5_summary_fallback (periods : List Period)
    (hs : periods.Pairwise (fun p q => p.sleep_at ≤ q.sleep_at)) :
    ((∃ p ∈ periods, p.is_likely_sleep = true) →
      ∃ q, selectSummary periods = Summary.sleep q ∧ q ∈ periods ∧
        q.is_likely_sleep = true ∧
        ∀ p ∈ periods, p.is_likely_sleep = true → p.sleep_at ≤ q.sleep_at) ∧
    ((∀ p ∈ periods, p.is_likely_sleep = false) →
      ∀ q, periods.getLast? = some q → selectSummary periods = Summary.away q) ∧
    (periods = [] → selectSummary periods = Summary.undetermined) ∧
    selectSummary [exP1, exP2, exP3] = Summary.sleep exP3 := by
  refine ⟨?_, ?_, ?_, ?_⟩
  · rintro ⟨p0, hp0, hp0s⟩
    have hmem : p0 ∈ periods.filter (fun p => p.is_likely_sleep) :=
      List.mem_filter.mpr ⟨hp0, hp0s⟩
    have hne : periods.filter (fun p => p.is_likely_sleep) ≠ [] := by
      intro hnil
      rw [hnil] at hmem
      cases hmem
    refine ⟨(periods.filter (fun p => p.is_likely_sleep)).getLast hne, ?_, ?_, ?_, ?_⟩
    · unfold selectSummary
      rw [List.getLast?_eq_getLast _ hne]
    · exact (List.mem_filter.mp (List.getLast_mem hne)).1
    · exact (List.mem_filter.mp (List.getLast_mem hne)).2
    · intro p hp hps
      exact pairwise_le_getLast _ hne (hs.sublist (List.filter_sublist _)) p
        (List.mem_filter.mpr ⟨hp, hps⟩)
  · intro hall q hq
    have hnil : periods.filter (fun p => p.is_likely_sleep) = [] :=
      List.filter_eq_nil_iff.mpr (fun a ha => by simp [hall a ha])
    unfold selectSummary
    rw [hnil, hq]
    rfl
  · rintro rfl
    rfl
  · rfl

theorem C5_summary_fallback_witness :
    selectSummary [exP1, exP2, exP3] = Summary.sleep exP3 :=
  (C5_summary_fallback [exP1, exP2, exP3] (by decide)).2.2.2

/-- C1: on the single-source scenario the de-duplicated timeline is as the
claim states, but the gap detector emits two periods, not one: the 15-hour
daytime gap from 08:00 to 23:00 also reaches the 3-hour threshold. -/
theorem C1_counterexample :
    (runCore [28800, 28830, 82800, 108000] 3).length = 2 := by
  have hagg : aggregate [28800, 28830, 82800, 108000] = [28800, 82800, 108000] := by
    decide
  rw [runCore, hagg]
  norm_num [find_sleep_periods, gapScan]

/-- C1 (amended): events at 08:00, 08:00:30, 23:00 and 06:00 the next day
with a 3-hour threshold give the timeline [08:00, 23:00, 06:00+1d] after
de-duplication, and the gap detector produces exactly the two periods
08:00-23:00 (15h, away) and 23:00-06:00+1d (7h, likely sleep). -/
theorem C1_amended :
    aggregate [28800, 28830, 82800, 108000] = [28800, 82800, 108000] ∧
    runCore [28800, 28830, 82800, 108000] 3 =
      [{ sleep_at := 28800, wake_at := 82800, duration_hours := 15,
         is_likely_sleep := false },
       { sleep_at := 82800, wake_at := 108000, duration_hours := 7,
         is_likely_sleep := true }] := by
  have hagg : aggregate [28800, 28830, 82800, 108000] = [28800, 82800, 108000] := by
    decide
  refine ⟨hagg, ?_⟩
  rw [runCore, hagg]
  norm_num [find_sleep_periods, gapScan, mkPeriod, hourOf]
  decide
